import Mathlib

/-!
Verification of the aggregation pipeline of `slack_job_bot.py`
(repository JobScraper): job records, location filtering, first-wins
deduplication, Slack delivery with a posted-set, channel-id caching and
the scheduled retry loop, shallowly embedded in Lean.
-/

set_option maxRecDepth 4096

namespace JobBot

/-- One job record, mirroring the dictionaries produced by the scrapers in
`slack_job_bot.py`. Optional fields correspond to keys accessed with
`job.get(...)` in the Python source. -/
structure Job where
  title : String
  company : String
  location : String
  industry : Option String
  description : Option String
  url : String
  posted_date : Option String
  source : String
  is_network_post : Bool
  posted_by : Option String
  connection_degree : Option String
deriving DecidableEq, Repr

/-- Placeholder record used only to give list indexing a default value. -/
def defaultJob : Job :=
  { title := "", company := "", location := "", industry := none,
    description := none, url := "", posted_date := none, source := "",
    is_network_post := false, posted_by := none, connection_degree := none }

instance : Inhabited Job := ⟨defaultJob⟩

/-- Python truthiness of an optional string (`if job.get(k):`): both a
missing key and an empty string are falsy. -/
def truthyOpt : Option String → Bool
  | some s => !(s == "")
  | none => false

/-- Embedding of Python `str.lower()` (the inputs of this program are
ASCII, where `Char.toLower` agrees with Python). -/
def strLower (s : String) : String := String.mk (s.data.map Char.toLower)

/-- Does `hay` start with `needle`? Helper for the substring test. -/
def leads : List Char → List Char → Bool
  | [], _ => true
  | _ :: _, [] => false
  | a :: as, b :: bs => (a == b) && leads as bs

/-- Embedding of the Python substring operator `needle in hay` on
character lists. -/
def has_sub : List Char → List Char → Bool
  | needle, [] => needle.isEmpty
  | needle, c :: rest => leads needle (c :: rest) || has_sub needle rest

/-- `needle in hay` on strings. -/
def isSubstr (needle hay : String) : Bool := has_sub needle.data hay.data

/-- Embedding of the Python slice `s[:n]` (by characters). -/
def strTake (s : String) (n : Nat) : String := String.mk (s.data.take n)

/-- The configured accepted-location tokens (`self.target_locations` in
`__init__`). -/
def target_locations : List String :=
  ["bangalore", "bengaluru", "pune", "chennai",
   "hyderabad", "remote", "hybrid", "work from home"]

/-- Embedding of `matches_location_filter`: lowercase the location text,
then test whether any accepted token occurs in it verbatim. The token
list is a parameter standing for `self.target_locations`. -/
def matches_location_filter (targets : List String) (location : String) : Bool :=
  let location_lower := strLower location
  targets.any (fun target_loc => isSubstr target_loc location_lower)

/-- Modelled from the spec: the location predicate as the spec words it,
case-insensitive on both sides (the accepted token is lowercased too).
Used only to compare the spec reading against the source function. -/
def matches_spec_both_lower (targets : List String) (location : String) : Bool :=
  targets.any (fun target_loc => isSubstr (strLower target_loc) (strLower location))

example : matches_location_filter ["pune"] "Pune (Hybrid)" = true := by decide
example : matches_location_filter ["bangalore", "pune"] "Mumbai" = false := by decide
example : matches_location_filter ["Pune"] "Pune (Hybrid)" = false := by decide
example : matches_spec_both_lower ["Pune"] "Pune (Hybrid)" = true := by decide

/-! ## Aggregation: `fetch_all_jobs` and its dedup step -/

/-- The intra-batch aggregation identifier
(`identifier = f"{job['title']}_{job['company']}"` in `fetch_all_jobs`). -/
def aggKey (job : Job) : String := job.title ++ "_" ++ job.company

/-- The dedup loop of `fetch_all_jobs`: walk the records in order,
keeping a record exactly when its identifier is not in `seen` yet and
adding the identifier to `seen` when it is kept. -/
def dedupGo (seen : List String) : List Job → List Job
  | [] => []
  | job :: rest =>
    if aggKey job ∈ seen then dedupGo seen rest
    else job :: dedupGo (aggKey job :: seen) rest

/-- The dedup step of `fetch_all_jobs` (lines 432-440), starting from an
empty `seen` set. -/
def dedup_jobs (all_jobs : List Job) : List Job := dedupGo [] all_jobs

/-- The hard-coded board sweep locations inside `fetch_all_jobs`. -/
def board_locations : List String :=
  ["Bangalore", "Pune", "Chennai", "Hyderabad", "Remote India"]

/-- Inner loop of the board sweep: for each location, call the LinkedIn
scraper then the Indeed scraper and append the results; an exception from
either call propagates (there is no try/except in `fetch_all_jobs`). -/
def sweep_locations (li ind : String → String → Except String (List Job))
    (query : String) : List String → Except String (List Job)
  | [] => Except.ok []
  | loc :: rest => do
    let linkedin_jobs ← li query loc
    let indeed_jobs ← ind query loc
    let more ← sweep_locations li ind query rest
    Except.ok (linkedin_jobs ++ indeed_jobs ++ more)

/-- Middle loop of the board sweep: for each industry, build the query
`f"{role} {industry}"` and run the location loop. -/
def sweep_industries (li ind : String → String → Except String (List Job))
    (role : String) : List String → Except String (List Job)
  | [] => Except.ok []
  | industry :: rest => do
    let here ← sweep_locations li ind (role ++ " " ++ industry) board_locations
    let more ← sweep_industries li ind role rest
    Except.ok (here ++ more)

/-- Outer loop of the board sweep over the configured roles. -/
def sweep_roles (li ind : String → String → Except String (List Job))
    (industries : List String) : List String → Except String (List Job)
  | [] => Except.ok []
  | role :: rest => do
    let here ← sweep_industries li ind role industries
    let more ← sweep_roles li ind industries rest
    Except.ok (here ++ more)

/-- Embedding of `fetch_all_jobs`: collect the network posts, then the
full role-by-industry-by-location board sweep (LinkedIn then Indeed at
each step), concatenate everything in call order and run the dedup step.
The scrapers are parameters (`Except` models a raised exception); note
that no call is wrapped in a handler, so any failure propagates out of
the whole aggregation. -/
def fetch_all_jobs (network : Except String (List Job))
    (li ind : String → String → Except String (List Job))
    (roles industries : List String) : Except String (List Job) := do
  let network_jobs ← network
  let board_jobs ← sweep_roles li ind industries roles
  Except.ok (dedup_jobs (network_jobs ++ board_jobs))

/-- Pure variant of the location loop, used to state what the sweep
returns when no scraper call fails. -/
def pure_sweep_locations (li ind : String → String → List Job)
    (query : String) : List String → List Job
  | [] => []
  | loc :: rest =>
    li query loc ++ ind query loc ++ pure_sweep_locations li ind query rest

/-- Pure variant of the industry loop. -/
def pure_sweep_industries (li ind : String → String → List Job)
    (role : String) : List String → List Job
  | [] => []
  | industry :: rest =>
    pure_sweep_locations li ind (role ++ " " ++ industry) board_locations ++
      pure_sweep_industries li ind role rest

/-- Pure variant of the role loop. -/
def pure_sweep_roles (li ind : String → String → List Job)
    (industries : List String) : List String → List Job
  | [] => []
  | role :: rest =>
    pure_sweep_industries li ind role industries ++
      pure_sweep_roles li ind industries rest

/-- Wrap a scraper that never fails into the exception-aware interface. -/
def liftScraper (f : String → String → List Job) :
    String → String → Except String (List Job) :=
  fun query loc => Except.ok (f query loc)

/-! ## Message formatter: `format_job_message` -/

/-- One Slack block of the message built by `format_job_message`, keeping
exactly the data the source puts into each block. -/
inductive Block
  | header (text : String)
  | fieldsSection (company location industry posted : String)
  | contextAttribution (text : String)
  | descSection (text : String)
  | applyButton (label url : String)
  | divider
deriving DecidableEq, Repr

/-- Embedding of `format_job_message`: emoji choice, header, fields
section, optional attribution context, optional 300-character description
section always followed by the marker, apply button and divider. -/
def format_job_message (job : Job) : List Block :=
  let emoji :=
    if job.is_network_post then "👥"
    else if isSubstr "remote" (strLower job.location) then "🌐"
    else "🎯"
  let base : List Block :=
    [Block.header (emoji ++ " " ++ job.title),
     Block.fieldsSection job.company job.location
       (job.industry.getD "N/A") (job.posted_date.getD "Recently")]
  let withNetwork : List Block :=
    base ++
      (if job.is_network_post && truthyOpt job.posted_by then
        [Block.contextAttribution
          ("👤 Posted by: *" ++ job.posted_by.getD "" ++ "* (" ++
            job.connection_degree.getD "Connection" ++ ")")]
      else [])
  let withDescription : List Block :=
    withNetwork ++
      (if truthyOpt job.description then
        [Block.descSection
          ("*Description:*\n" ++ strTake (job.description.getD "") 300 ++ "...")]
      else [])
  withDescription ++
    [Block.applyButton
      (if job.is_network_post then "View Post 👀" else "Apply Now 🚀") job.url,
     Block.divider]

/-- Recognize the description section of a formatted message. -/
def isDescBlock : Block → Bool
  | Block.descSection _ => true
  | _ => false

/-! ## Dispatcher: `send_job_to_slack` -/

/-- Outcome of one `chat_postMessage` call: an ok response, a non-ok
response, or a raised `SlackApiError`. -/
inductive ChannelResponse
  | ok
  | notOk
  | apiError (err : String)
deriving DecidableEq, Repr

/-- What one `send_job_to_slack` call produces: the boolean return value,
the `posted_jobs` set afterwards, and how many Delivery Channel send
calls were made (0 or 1). -/
structure SendOutcome where
  result : Bool
  posted : List String
  channelCalls : Nat
deriving DecidableEq, Repr

/-- The delivery identity key
(`job_id = f"{job['company']}_{job['title']}_{job['location']}"`). -/
def deliveryKey (job : Job) : String :=
  job.company ++ "_" ++ job.title ++ "_" ++ job.location

/-- Embedding of `send_job_to_slack`: skip (returning `False`, with no
channel call) when the delivery key is already in `posted_jobs`;
otherwise call `chat_postMessage` once and, only on an ok response, add
the key and return `True`; a non-ok response or an API error returns
`False` without touching `posted_jobs`. -/
def send_job_to_slack (chan : ChannelResponse) (posted : List String)
    (job : Job) : SendOutcome :=
  let job_id := deliveryKey job
  if job_id ∈ posted then
    { result := false, posted := posted, channelCalls := 0 }
  else
    match chan with
    | ChannelResponse.ok =>
      { result := true, posted := job_id :: posted, channelCalls := 1 }
    | ChannelResponse.notOk =>
      { result := false, posted := posted, channelCalls := 1 }
    | ChannelResponse.apiError _ =>
      { result := false, posted := posted, channelCalls := 1 }

/-! ## Channel resolution and the pass loop: `get_channel_id`,
`run_once`, `run_scheduled` -/

/-- The mutable bot attributes the pipeline touches
(`self.channel_id` and `self.posted_jobs`). -/
structure BotState where
  channel_id : Option String
  posted_jobs : List String
deriving DecidableEq, Repr

/-- Outcome of one `conversations_list` call: a channel listing of
(name, id) pairs, or a raised `SlackApiError`. -/
inductive ListOutcome
  | channels (chs : List (String × String))
  | apiError (err : String)

/-- The lookup loop of `get_channel_id` over the returned channels. -/
def find_channel (name : String) : List (String × String) → Option String
  | [] => none
  | ch :: rest => if ch.1 = name then some ch.2 else find_channel name rest

/-- Embedding of `get_channel_id`: one `conversations_list` call; on a
match the id is cached in `self.channel_id`, otherwise an exception is
raised (also on an API error) and the state is left unchanged. -/
def get_channel_id (name : String) (res : ListOutcome) (st : BotState) :
    Except String BotState :=
  match res with
  | ListOutcome.channels chs =>
    match find_channel name chs with
    | some id => Except.ok { st with channel_id := some id }
    | none => Except.error ("Channel " ++ name ++ " not found")
  | ListOutcome.apiError e => Except.error ("Error fetching channels: " ++ e)

/-- The environment one pass runs against: what `conversations_list`
would return, whether the fetch stage raises, the fetched jobs otherwise,
and the channel response for each send in order. -/
structure PassEnv where
  listing : ListOutcome
  fetch_fault : Option String
  jobs : List Job
  sends : Nat → ChannelResponse

/-- The posting loop of `run_once`: fold `send_job_to_slack` over the
fetched jobs, threading `posted_jobs`. -/
def send_all (sends : Nat → ChannelResponse) (k : Nat) (posted : List String) :
    List Job → List String
  | [] => posted
  | job :: rest =>
    send_all sends (k + 1) (send_job_to_slack (sends k) posted job).posted rest

/-- Embedding of `run_once`: resolve the channel id only when
`self.channel_id` is falsy (one `conversations_list` call, counted in the
returned number), then fetch and post. The first component is the
exception the pass raised, if any; state mutations made before the
exception are kept, as in Python. -/
def run_once (name : String) (env : PassEnv) (st : BotState) :
    Option String × BotState × Nat :=
  let body : BotState → Option String × BotState := fun st1 =>
    match env.fetch_fault with
    | some e => (some e, st1)
    | none =>
      (none, { st1 with posted_jobs := send_all env.sends 0 st1.posted_jobs env.jobs })
  if truthyOpt st.channel_id then
    let (fault, st2) := body st
    (fault, st2, 0)
  else
    match get_channel_id name env.listing st with
    | Except.error e => (some e, st, 1)
    | Except.ok st1 =>
      let (fault, st2) := body st1
      (fault, st2, 1)

/-- The scheduled loop as seen through a finite list of pass
environments: each iteration runs `run_once`, catching any exception and
continuing with the mutated state; the second component is the total
number of `conversations_list` calls made. -/
def run_scheduled_passes (name : String) : List PassEnv → BotState → BotState × Nat
  | [], st => (st, 0)
  | env :: rest, st =>
    let (_, st1, n) := run_once name env st
    let (st2, m) := run_scheduled_passes name rest st1
    (st2, n + m)

/-! ## The scheduler loop of `run_scheduled` as an event trace -/

/-- What one iteration of the `while True` loop encounters: `run_once`
returns normally, raises an exception, or a `KeyboardInterrupt` arrives. -/
inductive PassEvent
  | passOk
  | passFault (msg : String)
  | interrupt
deriving DecidableEq, Repr

/-- Observable actions of the scheduler loop. -/
inductive TraceStep
  | pass_ran
  | slept (seconds : Nat)
  | reported (msg : String)
  | stopped_by_user
deriving DecidableEq, Repr

/-- Embedding of `run_scheduled`: a normal pass is followed by the
interval sleep; an exception is caught, reported and followed by the
fixed 300-second cooldown, after which the loop continues; a
`KeyboardInterrupt` breaks the loop. The boolean records whether the
loop terminated (only via the interrupt branch). -/
def run_scheduled_loop (interval_hours : Nat) :
    List PassEvent → List TraceStep × Bool
  | [] => ([], false)
  | PassEvent.passOk :: rest =>
    let (tr, stopped) := run_scheduled_loop interval_hours rest
    (TraceStep.pass_ran :: TraceStep.slept (interval_hours * 3600) :: tr, stopped)
  | PassEvent.passFault msg :: rest =>
    let (tr, stopped) := run_scheduled_loop interval_hours rest
    (TraceStep.reported msg :: TraceStep.slept 300 :: tr, stopped)
  | PassEvent.interrupt :: _ => ([TraceStep.stopped_by_user], true)

/-- Recognize the fixed 300-second cooldown sleep in a trace. -/
def isCooldown : TraceStep → Bool
  | TraceStep.slept s => s == 300
  | _ => false

/-- Recognize a faulting pass among the events. -/
def isFault : PassEvent → Bool
  | PassEvent.passFault _ => true
  | _ => false

/-! ## Theory of the dedup step -/

/-- Index `i` of `l` survives the dedup loop run with initial seen-set
`seen`: its key is not in `seen` and no earlier index carries the same
key. -/
def keptAt (seen : List String) (l : List Job) (i : Nat) : Bool :=
  decide (aggKey (l.getD i defaultJob) ∉ seen ∧
    ∀ j, j < i → aggKey (l.getD j defaultJob) ≠ aggKey (l.getD i defaultJob))

/-- Index `i` is the first occurrence of its aggregation key in `l`. -/
def firstOccIdx (l : List Job) (i : Nat) : Bool :=
  decide (∀ j, j < i → aggKey (l.getD j defaultJob) ≠ aggKey (l.getD i defaultJob))

lemma keptAt_nil_eq (l : List Job) (i : Nat) :
    keptAt [] l i = firstOccIdx l i := by
  unfold keptAt firstOccIdx
  simp

lemma keptAt_zero (seen : List String) (job : Job) (rest : List Job) :
    keptAt seen (job :: rest) 0 = decide (aggKey job ∉ seen) := by
  unfold keptAt
  simp

lemma keptAt_cons_succ (seen : List String) (job : Job) (rest : List Job) (i : Nat) :
    keptAt seen (job :: rest) (i + 1) = keptAt (aggKey job :: seen) rest i := by
  unfold keptAt
  rw [decide_eq_decide]
  simp only [List.getD_cons_succ, List.mem_cons]
  constructor
  · rintro ⟨hs, hf⟩
    refine ⟨?_, fun j hj => ?_⟩
    · rintro (heq | hmem)
      · exact hf 0 (Nat.succ_pos i) (by simpa using heq.symm)
      · exact hs hmem
    · have := hf (j + 1) (Nat.succ_lt_succ hj)
      simpa using this
  · rintro ⟨hs, hf⟩
    refine ⟨fun hmem => hs (Or.inr hmem), fun j hj => ?_⟩
    cases j with
    | zero =>
      simp only [List.getD_cons_zero]
      intro heq
      exact hs (Or.inl heq.symm)
    | succ j =>
      simp only [List.getD_cons_succ]
      exact hf j (Nat.lt_of_succ_lt_succ hj)

lemma dedupGo_cons (seen : List String) (job : Job) (rest : List Job) :
    dedupGo seen (job :: rest) =
      if aggKey job ∈ seen then dedupGo seen rest
      else job :: dedupGo (aggKey job :: seen) rest := rfl

lemma dedupGo_seen_congr (seen₁ seen₂ : List String)
    (h : ∀ k, k ∈ seen₁ ↔ k ∈ seen₂) :
    ∀ l : List Job, dedupGo seen₁ l = dedupGo seen₂ l := by
  intro l
  induction l generalizing seen₁ seen₂ with
  | nil => rfl
  | cons job rest ih =>
    rw [dedupGo_cons, dedupGo_cons]
    by_cases hm : aggKey job ∈ seen₁
    · rw [if_pos hm, if_pos ((h _).mp hm)]
      exact ih seen₁ seen₂ h
    · rw [if_neg hm, if_neg (fun hc => hm ((h _).mpr hc))]
      refine congrArg _ (ih _ _ fun k => ?_)
      simp only [List.mem_cons]
      exact or_congr Iff.rfl (h k)

/-- The dedup loop keeps exactly the elements at surviving indices, in
index order and unmodified. -/
lemma dedupGo_eq_kept (l : List Job) : ∀ seen : List String,
    dedupGo seen l =
      ((List.range l.length).filter (keptAt seen l)).map
        (fun i => l.getD i defaultJob) := by
  induction l with
  | nil => intro seen; simp [dedupGo]
  | cons job rest ih =>
    intro seen
    have htail :
        (((List.range rest.length).map Nat.succ).filter
            (keptAt seen (job :: rest))).map
          (fun i => (job :: rest).getD i defaultJob) =
        ((List.range rest.length).filter (keptAt (aggKey job :: seen) rest)).map
          (fun i => rest.getD i defaultJob) := by
      rw [List.filter_map, List.map_map]
      have hps : (keptAt seen (job :: rest) ∘ Nat.succ) =
          keptAt (aggKey job :: seen) rest := by
        funext i
        exact keptAt_cons_succ seen job rest i
      rw [hps]
      refine List.map_congr_left fun i _ => ?_
      simp [Function.comp]
    rw [List.length_cons, List.range_succ_eq_map, dedupGo_cons]
    by_cases hm : aggKey job ∈ seen
    · have h0 : keptAt seen (job :: rest) 0 = false := by
        rw [keptAt_zero, decide_eq_false_iff_not]
        simpa using hm
      rw [if_pos hm, List.filter_cons, h0]
      simp only [Bool.false_eq_true, if_false]
      rw [htail, ← ih (aggKey job :: seen)]
      refine dedupGo_seen_congr _ _ (fun k => ?_) rest
      constructor
      · intro hk
        exact List.mem_cons_of_mem _ hk
      · intro hk
        rcases List.mem_cons.mp hk with h | h
        · rw [h]; exact hm
        · exact h
    · have h0 : keptAt seen (job :: rest) 0 = true := by
        rw [keptAt_zero, decide_eq_true_eq]
        exact hm
      rw [if_neg hm, List.filter_cons, h0]
      simp only [if_true]
      rw [List.map_cons, htail, ← ih (aggKey job :: seen)]
      rfl

/-- The dedup step, characterized by first occurrences of the
aggregation key. -/
lemma dedup_jobs_eq_firstOcc (l : List Job) :
    dedup_jobs l =
      ((List.range l.length).filter (firstOccIdx l)).map
        (fun i => l.getD i defaultJob) := by
  unfold dedup_jobs
  rw [dedupGo_eq_kept]
  have h : keptAt [] l = firstOccIdx l := funext fun i => keptAt_nil_eq l i
  rw [h]

/-- The dedup loop returns a subsequence of its input. -/
lemma dedupGo_sublist (seen : List String) (l : List Job) :
    List.Sublist (dedupGo seen l) l := by
  induction l generalizing seen with
  | nil => exact List.Sublist.refl []
  | cons job rest ih =>
    rw [dedupGo_cons]
    by_cases hm : aggKey job ∈ seen
    · rw [if_pos hm]
      exact (ih seen).cons job
    · rw [if_neg hm]
      exact (ih (aggKey job :: seen)).cons₂ job

/-- Every record kept by the dedup loop has a key outside the initial
seen-set. -/
lemma mem_dedupGo_key_not_seen (l : List Job) :
    ∀ seen : List String, ∀ job ∈ dedupGo seen l, aggKey job ∉ seen := by
  induction l with
  | nil => intro seen job h; cases h
  | cons hd rest ih =>
    intro seen job h
    rw [dedupGo_cons] at h
    by_cases hm : aggKey hd ∈ seen
    · rw [if_pos hm] at h
      exact ih seen job h
    · rw [if_neg hm] at h
      rcases List.mem_cons.mp h with rfl | h
      · exact hm
      · have := ih (aggKey hd :: seen) job h
        exact fun hc => this (List.mem_cons_of_mem _ hc)

/-- Records surviving the dedup loop carry pairwise distinct keys. -/
lemma dedupGo_pairwise_keys (l : List Job) :
    ∀ seen : List String,
      (dedupGo seen l).Pairwise (fun a b => aggKey a ≠ aggKey b) := by
  induction l with
  | nil => intro seen; exact List.Pairwise.nil
  | cons hd rest ih =>
    intro seen
    rw [dedupGo_cons]
    by_cases hm : aggKey hd ∈ seen
    · rw [if_pos hm]; exact ih seen
    · rw [if_neg hm]
      refine List.Pairwise.cons (fun b hb => ?_) (ih (aggKey hd :: seen))
      have := mem_dedupGo_key_not_seen rest (aggKey hd :: seen) b hb
      intro hc
      exact this (by rw [← hc]; exact List.mem_cons_self _ _)

/-- In a list with pairwise distinct keys, at most one element satisfies
any predicate that forces the key. -/
lemma countP_le_one_of_key_pairwise (l : List Job) (p : Job → Bool)
    (hp : ∀ a b, p a = true → p b = true → aggKey a = aggKey b)
    (hl : l.Pairwise (fun a b => aggKey a ≠ aggKey b)) :
    l.countP p ≤ 1 := by
  induction l with
  | nil => simp
  | cons hd rest ih =>
    rcases List.pairwise_cons.mp hl with ⟨h1, h2⟩
    rw [List.countP_cons]
    by_cases hphd : p hd = true
    · have hz : rest.countP p = 0 := by
        rw [List.countP_eq_zero]
        intro b hb hpb
        exact h1 b hb (hp hd b hphd hpb)
      simp [hz, hphd]
    · simp only [hphd, if_false]
      simpa using ih h2

/-! ## Theory of the sweep -/

lemma except_bind_ok {α β : Type} (a : α) (f : α → Except String β) :
    (Except.ok a >>= f) = f a := rfl

lemma except_bind_error {α β : Type} (e : String) (f : α → Except String β) :
    ((Except.error e : Except String α) >>= f) = Except.error e := rfl

/-- When no scraper call fails, the location loop returns the plain
concatenation of the scraper results in call order. -/
lemma sweep_locations_lift (li ind : String → String → List Job)
    (query : String) (locs : List String) :
    sweep_locations (liftScraper li) (liftScraper ind) query locs =
      Except.ok (pure_sweep_locations li ind query locs) := by
  induction locs with
  | nil => rfl
  | cons loc rest ih =>
    simp [sweep_locations, pure_sweep_locations, liftScraper, except_bind_ok, ih]

/-- When no scraper call fails, the industry loop returns the plain
concatenation of the scraper results in call order. -/
lemma sweep_industries_lift (li ind : String → String → List Job)
    (role : String) (industries : List String) :
    sweep_industries (liftScraper li) (liftScraper ind) role industries =
      Except.ok (pure_sweep_industries li ind role industries) := by
  induction industries with
  | nil => rfl
  | cons industry rest ih =>
    simp [sweep_industries, pure_sweep_industries, sweep_locations_lift,
      except_bind_ok, ih]

/-- When no scraper call fails, the role loop returns the plain
concatenation of the scraper results in call order. -/
lemma sweep_roles_lift (li ind : String → String → List Job)
    (industries roles : List String) :
    sweep_roles (liftScraper li) (liftScraper ind) industries roles =
      Except.ok (pure_sweep_roles li ind industries roles) := by
  induction roles with
  | nil => rfl
  | cons role rest ih =>
    simp [sweep_roles, pure_sweep_roles, sweep_industries_lift,
      except_bind_ok, ih]

/-! ## Theory of the pass loop -/

lemma truthy_some_ne (id : String) (h : id ≠ "") :
    truthyOpt (some id) = true := by
  simp [truthyOpt, h]

/-- When a channel id is already cached, `run_once` makes no
`conversations_list` call and does not change the cached id. -/
lemma run_once_cached (name : String) (env : PassEnv) (st : BotState)
    (h : truthyOpt st.channel_id = true) :
    (run_once name env st).2.2 = 0 ∧
      ((run_once name env st).2.1).channel_id = st.channel_id := by
  unfold run_once
  rw [h]
  cases env.fetch_fault <;> simp

/-- When a channel id is already cached, a whole sequence of passes
makes no `conversations_list` call. -/
lemma run_scheduled_passes_cached (name : String) :
    ∀ (envs : List PassEnv) (st : BotState),
      truthyOpt st.channel_id = true →
      (run_scheduled_passes name envs st).2 = 0 := by
  intro envs
  induction envs with
  | nil => intro st _; rfl
  | cons env rest ih =>
    intro st h
    obtain ⟨hzero, hid⟩ := run_once_cached name env st h
    unfold run_scheduled_passes
    rcases hrun : run_once name env st with ⟨fault, st1, n⟩
    have hn : n = 0 := by rw [hrun] at hzero; exact hzero
    have hst1 : st1.channel_id = st.channel_id := by rw [hrun] at hid; exact hid
    have htr : truthyOpt st1.channel_id = true := by rw [hst1]; exact h
    simp [hn, ih st1 htr]

/-- A pass that starts without a cached id and succeeds in resolving
caches the returned id and reports exactly one `conversations_list`
call. -/
lemma run_once_resolves (name : String) (env : PassEnv) (st : BotState)
    (hnc : truthyOpt st.channel_id = false)
    (chs : List (String × String)) (id : String)
    (hl : env.listing = ListOutcome.channels chs)
    (hf : find_channel name chs = some id) :
    (run_once name env st).2.2 = 1 ∧
      ((run_once name env st).2.1).channel_id = some id := by
  unfold run_once
  rw [hnc]
  simp only [Bool.false_eq_true, if_false]
  rw [hl]
  simp only [get_channel_id, hf]
  cases env.fetch_fault <;> simp

/-! ## Theory of the scheduler loop -/

/-- Recognize a report action in a trace. -/
def isReport : TraceStep → Bool
  | TraceStep.reported _ => true
  | _ => false

/-- The loop breaks exactly when a `KeyboardInterrupt` arrives. -/
lemma run_loop_stops_iff (hours : Nat) :
    ∀ events : List PassEvent,
      (run_scheduled_loop hours events).2 = true ↔
        PassEvent.interrupt ∈ events := by
  intro events
  induction events with
  | nil => simp [run_scheduled_loop]
  | cons ev rest ih =>
    cases ev with
    | passOk =>
      rcases h : run_scheduled_loop hours rest with ⟨tr, b⟩
      rw [h] at ih
      simp [run_scheduled_loop, h, ih]
    | passFault m =>
      rcases h : run_scheduled_loop hours rest with ⟨tr, b⟩
      rw [h] at ih
      simp [run_scheduled_loop, h, ih]
    | interrupt =>
      simp [run_scheduled_loop]

/-- Without an interrupt, each faulting pass contributes exactly one
report and one 300-second cooldown to the trace. -/
lemma run_loop_fault_counts (hours : Nat) :
    ∀ events : List PassEvent, PassEvent.interrupt ∉ events →
      (run_scheduled_loop hours events).1.countP isCooldown =
          events.countP isFault ∧
        (run_scheduled_loop hours events).1.countP isReport =
          events.countP isFault := by
  have hne : hours * 3600 ≠ 300 := by omega
  intro events
  induction events with
  | nil => intro _; simp [run_scheduled_loop]
  | cons ev rest ih =>
    intro hni
    have hrest : PassEvent.interrupt ∉ rest := fun hc => hni (List.mem_cons_of_mem _ hc)
    have hev : PassEvent.interrupt ≠ ev := fun hc => hni (hc ▸ List.mem_cons_self _ _)
    obtain ⟨ih1, ih2⟩ := ih hrest
    cases ev with
    | passOk =>
      rcases h : run_scheduled_loop hours rest with ⟨tr, b⟩
      rw [h] at ih1 ih2
      simp [run_scheduled_loop, h, List.countP_cons, isCooldown, isReport,
        isFault, hne, ih1, ih2]
    | passFault m =>
      rcases h : run_scheduled_loop hours rest with ⟨tr, b⟩
      rw [h] at ih1 ih2
      simp [run_scheduled_loop, h, List.countP_cons, isCooldown, isReport,
        isFault, ih1, ih2]
    | interrupt =>
      exact absurd rfl hev

/-! ## Sample records used in concrete runs -/

/-- A board job record. -/
def jobA : Job :=
  { title := "Product Manager", company := "Acme",
    location := "Bangalore", industry := some "Finance",
    description := some "Build payment products for the Indian market",
    url := "https://example.com/a", posted_date := some "Today",
    source := "LinkedIn", is_network_post := false,
    posted_by := none, connection_degree := none }

/-- Same title and company as `jobA`, different location and source. -/
def jobB : Job :=
  { title := "Product Manager", company := "Acme",
    location := "Pune", industry := some "Finance",
    description := none,
    url := "https://example.com/b", posted_date := some "Today",
    source := "Indeed", is_network_post := false,
    posted_by := none, connection_degree := none }

/-- A record with a different title and company. -/
def jobC : Job :=
  { title := "Senior PM", company := "Fintech Unicorn",
    location := "Chennai (Remote)", industry := some "Finance",
    description := none,
    url := "https://example.com/c", posted_date := none,
    source := "Indeed", is_network_post := false,
    posted_by := none, connection_degree := none }

/-- A record whose description is exactly 50 characters long. -/
def jobDesc50 : Job :=
  { jobA with description := some "PM role building payment products across India now" }

/-- A LinkedIn scraper that always raises. -/
def err_li : String → String → Except String (List Job) :=
  fun _ _ => Except.error "network error"

/-- An Indeed scraper that always returns one record. -/
def one_job_ind : String → String → Except String (List Job) :=
  fun _ _ => Except.ok [jobC]

/-- A pass environment whose channel listing call raises. -/
def env_resolve_fail : PassEnv :=
  { listing := ListOutcome.apiError "boom", fetch_fault := none,
    jobs := [], sends := fun _ => ChannelResponse.ok }

/-- A pass environment whose channel listing contains the destination. -/
def env_resolve_good : PassEnv :=
  { listing := ListOutcome.channels [("job-alerts", "C123")],
    fetch_fault := none, jobs := [], sends := fun _ => ChannelResponse.ok }

/-! ## Claims -/

/-- Claim C1: the aggregation dedup step of `fetch_all_jobs` is
first-wins on (title, company): whenever the records at positions
`i < j` agree on title and company, the output holds at most one record
with that title and company, the record at position `j` is never a
surviving first occurrence, the record at position `i` survives exactly
when it is the first occurrence of its key, and the output is a
subsequence of the input, so dropped records are never merged. -/
theorem c1_agg_dedup_first_wins (l : List Job) (i j : Nat)
    (hij : i < j) (hj : j < l.length)
    (ht : (l.getD i defaultJob).title = (l.getD j defaultJob).title)
    (hc : (l.getD i defaultJob).company = (l.getD j defaultJob).company) :
    (dedup_jobs l).countP
        (fun r => decide (r.title = (l.getD i defaultJob).title ∧
          r.company = (l.getD i defaultJob).company)) ≤ 1 ∧
      firstOccIdx l j = false ∧
      (firstOccIdx l i = true → l.getD i defaultJob ∈ dedup_jobs l) ∧
      List.Sublist (dedup_jobs l) l := by
  have hkey : aggKey (l.getD i defaultJob) = aggKey (l.getD j defaultJob) := by
    unfold aggKey
    rw [ht, hc]
  refine ⟨?_, ?_, ?_, dedupGo_sublist [] l⟩
  · refine countP_le_one_of_key_pairwise _ _ ?_ (dedupGo_pairwise_keys l [])
    intro a b ha hb
    have ha' := of_decide_eq_true ha
    have hb' := of_decide_eq_true hb
    unfold aggKey
    rw [ha'.1, ha'.2, hb'.1, hb'.2]
  · unfold firstOccIdx
    rw [decide_eq_false_iff_not]
    intro hall
    exact hall i hij hkey
  · intro hfirst
    rw [dedup_jobs_eq_firstOcc]
    refine List.mem_map.mpr ⟨i, List.mem_filter.mpr ⟨?_, hfirst⟩, rfl⟩
    exact List.mem_range.mpr (Nat.lt_trans hij hj)

/-- Witness for C1 on a concrete two-record batch sharing (title,
company). -/
theorem c1_agg_dedup_first_wins_witness :
    ((0 : Nat) < 1 ∧ 1 < ([jobA, jobB] : List Job).length ∧
      (([jobA, jobB] : List Job).getD 0 defaultJob).title =
        (([jobA, jobB] : List Job).getD 1 defaultJob).title ∧
      (([jobA, jobB] : List Job).getD 0 defaultJob).company =
        (([jobA, jobB] : List Job).getD 1 defaultJob).company) ∧
    ((dedup_jobs [jobA, jobB]).countP
        (fun r => decide (r.title = (([jobA, jobB] : List Job).getD 0 defaultJob).title ∧
          r.company = (([jobA, jobB] : List Job).getD 0 defaultJob).company)) ≤ 1 ∧
      firstOccIdx [jobA, jobB] 1 = false ∧
      (firstOccIdx [jobA, jobB] 0 = true →
        ([jobA, jobB] : List Job).getD 0 defaultJob ∈ dedup_jobs [jobA, jobB]) ∧
      List.Sublist (dedup_jobs [jobA, jobB]) [jobA, jobB]) :=
  ⟨⟨by decide, by decide, by decide, by decide⟩,
    c1_agg_dedup_first_wins [jobA, jobB] 0 1 (by decide) (by decide)
      (by decide) (by decide)⟩

/-- Claim C10: the dedup step is stable and non-mutating: its output is
exactly the records at first-occurrence positions of the aggregation
key, in input order and unmodified, and it is a subsequence of the
input. -/
theorem c10_dedup_stable_first_occurrences (l : List Job) :
    dedup_jobs l =
      ((List.range l.length).filter (firstOccIdx l)).map
        (fun i => l.getD i defaultJob) ∧
      List.Sublist (dedup_jobs l) l :=
  ⟨dedup_jobs_eq_firstOcc l, dedupGo_sublist [] l⟩

/-- Claim C2: a delivery whose identity key is already in `posted_jobs`
returns the skip result `False`, makes no channel call and leaves the
set unchanged; and after one successful delivery of a fresh record, a
second attempt with the same record is skipped the same way. -/
theorem c2_duplicate_delivery_suppressed (chan chan2 : ChannelResponse)
    (posted posted0 : List String) (job : Job)
    (hdup : deliveryKey job ∈ posted)
    (hnew : deliveryKey job ∉ posted0) :
    send_job_to_slack chan posted job =
      { result := false, posted := posted, channelCalls := 0 } ∧
      (send_job_to_slack ChannelResponse.ok posted0 job).result = true ∧
      send_job_to_slack chan2 (send_job_to_slack ChannelResponse.ok posted0 job).posted job =
        { result := false,
          posted := (send_job_to_slack ChannelResponse.ok posted0 job).posted,
          channelCalls := 0 } := by
  refine ⟨?_, ?_, ?_⟩
  · simp [send_job_to_slack, hdup]
  · simp [send_job_to_slack, hnew]
  · have hposted : (send_job_to_slack ChannelResponse.ok posted0 job).posted =
        deliveryKey job :: posted0 := by
      simp [send_job_to_slack, hnew]
    rw [hposted]
    simp [send_job_to_slack]

/-- Witness for C2 on a concrete record, posted set and channel. -/
theorem c2_duplicate_delivery_suppressed_witness :
    (deliveryKey jobA ∈ [deliveryKey jobA] ∧
      deliveryKey jobA ∉ ([] : List String)) ∧
    (send_job_to_slack ChannelResponse.notOk [deliveryKey jobA] jobA =
      { result := false, posted := [deliveryKey jobA], channelCalls := 0 } ∧
      (send_job_to_slack ChannelResponse.ok [] jobA).result = true ∧
      send_job_to_slack (ChannelResponse.apiError "boom")
          (send_job_to_slack ChannelResponse.ok [] jobA).posted jobA =
        { result := false,
          posted := (send_job_to_slack ChannelResponse.ok [] jobA).posted,
          channelCalls := 0 }) :=
  ⟨⟨by decide, by decide⟩,
    c2_duplicate_delivery_suppressed ChannelResponse.notOk
      (ChannelResponse.apiError "boom") [deliveryKey jobA] [] jobA
      (by decide) (by decide)⟩

/-- Claim C3: a failed send returns `False` and does not commit the
delivery identity key, one channel call was made, a retry of the same
record with a working channel succeeds rather than being skipped, and in
general the posted set either stays unchanged or the call was a
successful ok-send that added exactly the key. -/
theorem c3_failed_delivery_retryable (chan ch2 : ChannelResponse)
    (posted : List String) (job : Job)
    (hfail : chan ≠ ChannelResponse.ok)
    (hnew : deliveryKey job ∉ posted) :
    send_job_to_slack chan posted job =
      { result := false, posted := posted, channelCalls := 1 } ∧
      send_job_to_slack ChannelResponse.ok posted job =
        { result := true, posted := deliveryKey job :: posted, channelCalls := 1 } ∧
      ((send_job_to_slack ch2 posted job).posted = posted ∨
        (ch2 = ChannelResponse.ok ∧
          (send_job_to_slack ch2 posted job).result = true ∧
          (send_job_to_slack ch2 posted job).posted = deliveryKey job :: posted)) := by
  refine ⟨?_, ?_, ?_⟩
  · cases chan with
    | ok => exact absurd rfl hfail
    | notOk => simp [send_job_to_slack, hnew]
    | apiError e => simp [send_job_to_slack, hnew]
  · simp [send_job_to_slack, hnew]
  · cases ch2 with
    | ok => exact Or.inr ⟨rfl, by simp [send_job_to_slack, hnew]⟩
    | notOk => exact Or.inl (by simp [send_job_to_slack, hnew])
    | apiError e => exact Or.inl (by simp [send_job_to_slack, hnew])

/-- Witness for C3 on a concrete record with an API error. -/
theorem c3_failed_delivery_retryable_witness :
    ((ChannelResponse.apiError "boom" ≠ ChannelResponse.ok) ∧
      deliveryKey jobA ∉ ([] : List String)) ∧
    (send_job_to_slack (ChannelResponse.apiError "boom") [] jobA =
      { result := false, posted := [], channelCalls := 1 } ∧
      send_job_to_slack ChannelResponse.ok [] jobA =
        { result := true, posted := [deliveryKey jobA], channelCalls := 1 } ∧
      ((send_job_to_slack ChannelResponse.notOk [] jobA).posted = [] ∨
        (ChannelResponse.notOk = ChannelResponse.ok ∧
          (send_job_to_slack ChannelResponse.notOk [] jobA).result = true ∧
          (send_job_to_slack ChannelResponse.notOk [] jobA).posted =
            [deliveryKey jobA]))) :=
  ⟨⟨by decide, by decide⟩,
    c3_failed_delivery_retryable (ChannelResponse.apiError "boom")
      ChannelResponse.notOk [] jobA (by decide) (by decide)⟩

/-- Claim C4, counterexample: `matches_location_filter` lowercases the
location text only, never the accepted token, so it is not
case-insensitive on both sides: with the token "Pune" capitalized it
misses "Pune (Hybrid)", even though the spec-worded predicate (both
sides lowercased) accepts it. -/
theorem c4_counterexample :
    matches_location_filter ["Pune"] "Pune (Hybrid)" = false ∧
      matches_spec_both_lower ["Pune"] "Pune (Hybrid)" = true := by
  exact ⟨by decide, by decide⟩

/-- Claim C4 (amended): `matches_location_filter` returns true exactly
when some accepted token occurs verbatim inside the lowercased location
text; with the configured all-lowercase token list this coincides with
case-insensitive containment, and both spec examples hold. -/
theorem c4_location_filter_amended :
    (∀ (targets : List String) (location : String),
      matches_location_filter targets location = true ↔
        ∃ t ∈ targets, isSubstr t (strLower location) = true) ∧
      matches_location_filter target_locations "Pune (Hybrid)" = true ∧
      matches_location_filter target_locations "Mumbai" = false ∧
      matches_location_filter ["pune"] "Pune (Hybrid)" = true ∧
      matches_location_filter ["bangalore", "pune"] "Mumbai" = false := by
  refine ⟨?_, by decide, by decide, by decide, by decide⟩
  intro targets location
  simp [matches_location_filter, List.any_eq_true]

/-- Claim C5, counterexample: with the LinkedIn scraper raising and the
Indeed scraper holding one record, `fetch_all_jobs` returns the raised
error itself — the failing adapter call aborts the whole aggregation
instead of contributing zero records while the others continue. -/
theorem c5_counterexample :
    fetch_all_jobs (Except.ok []) err_li one_job_ind
        ["product manager"] ["finance"] = Except.error "network error" ∧
      one_job_ind "product manager finance" "Bangalore" = Except.ok [jobC] := by
  exact ⟨rfl, rfl⟩

/-- Claim C5 (amended): `fetch_all_jobs` has no per-adapter recovery: a
raised network-post scrape propagates, a raised board scrape propagates,
and only when every call succeeds does it return the first-wins dedup of
the concatenated results in call order. -/
theorem c5_adapter_failure_amended (e : String) (nj : List Job)
    (li ind : String → String → Except String (List Job))
    (pli pind : String → String → List Job)
    (roles industries : List String)
    (h1 : roles ≠ []) (h2 : industries ≠ []) :
    fetch_all_jobs (Except.error e) li ind roles industries = Except.error e ∧
      fetch_all_jobs (Except.ok nj) (fun _ _ => Except.error e) ind roles industries =
        Except.error e ∧
      fetch_all_jobs (Except.ok nj) (liftScraper pli) (liftScraper pind) roles industries =
        Except.ok (dedup_jobs (nj ++ pure_sweep_roles pli pind industries roles)) := by
  refine ⟨rfl, ?_, ?_⟩
  · cases roles with
    | nil => exact absurd rfl h1
    | cons role roles' =>
      cases industries with
      | nil => exact absurd rfl h2
      | cons industry industries' =>
        simp [fetch_all_jobs, sweep_roles, sweep_industries, sweep_locations,
          board_locations, except_bind_ok, except_bind_error]
  · simp [fetch_all_jobs, sweep_roles_lift, except_bind_ok]

/-- Witness for C5 (amended) at a one-role, one-industry configuration. -/
theorem c5_adapter_failure_amended_witness :
    ((["role"] : List String) ≠ [] ∧ (["industry"] : List String) ≠ []) ∧
    (fetch_all_jobs (Except.error "boom") one_job_ind one_job_ind
        ["role"] ["industry"] = Except.error "boom" ∧
      fetch_all_jobs (Except.ok []) (fun _ _ => Except.error "boom") one_job_ind
        ["role"] ["industry"] = Except.error "boom" ∧
      fetch_all_jobs (Except.ok []) (liftScraper fun _ _ => [jobA])
          (liftScraper fun _ _ => [jobB]) ["role"] ["industry"] =
        Except.ok (dedup_jobs ([] ++ pure_sweep_roles (fun _ _ => [jobA])
          (fun _ _ => [jobB]) ["industry"] ["role"]))) :=
  ⟨⟨by decide, by decide⟩,
    c5_adapter_failure_amended "boom" [] one_job_ind one_job_ind
      (fun _ _ => [jobA]) (fun _ _ => [jobB]) ["role"] ["industry"]
      (by decide) (by decide)⟩

/-- Claim C6, counterexample: a transport failure (one channel call
made, API error) and a duplicate skip (no channel call) both return
`False`; the returned value alone cannot tell them apart, so
`send_job_to_slack` does not return three mutually distinguishable
results. -/
theorem c6_counterexample :
    (send_job_to_slack (ChannelResponse.apiError "boom") [] jobA).result = false ∧
      (send_job_to_slack (ChannelResponse.apiError "boom") [] jobA).channelCalls = 1 ∧
      (send_job_to_slack ChannelResponse.ok [deliveryKey jobA] jobA).result = false ∧
      (send_job_to_slack ChannelResponse.ok [deliveryKey jobA] jobA).channelCalls = 0 ∧
      (send_job_to_slack (ChannelResponse.apiError "boom") [] jobA).result =
        (send_job_to_slack ChannelResponse.ok [deliveryKey jobA] jobA).result := by
  refine ⟨by decide, by decide, by decide, by decide, by decide⟩

/-- Claim C6 (amended): `send_job_to_slack` returns a two-valued result:
`True` exactly when the record was fresh and the channel call succeeded;
duplicate skips and failures both return `False` and are distinguishable
only through side effects, not from the returned value. -/
theorem c6_delivery_result_amended (chan : ChannelResponse)
    (posted : List String) (job : Job) :
    (send_job_to_slack chan posted job).result = true ↔
      (deliveryKey job ∉ posted ∧ chan = ChannelResponse.ok) := by
  by_cases h : deliveryKey job ∈ posted
  · simp [send_job_to_slack, h]
  · cases chan <;> simp [send_job_to_slack, h]

/-- Claim C7: when a record carries a non-empty description, the
formatted message holds exactly one description section, consisting of
the first 300 characters of the description followed by the continuation
marker, and when the description is at most 300 characters long the
truncation keeps it whole — so a 50-character description is rendered in
full with the marker still appended. -/
theorem c7_description_truncation (job : Job) (d : String)
    (hd : job.description = some d) (hne : d ≠ "") :
    (format_job_message job).filter isDescBlock =
      [Block.descSection ("*Description:*\n" ++ strTake d 300 ++ "...")] ∧
      (d.data.length ≤ 300 → strTake d 300 = d) := by
  constructor
  · have htr : truthyOpt (some d) = true := by
      simp [truthyOpt, hne]
    cases hnp : job.is_network_post <;> cases hpb : truthyOpt job.posted_by <;>
      simp [format_job_message, hd, htr, hnp, hpb, isDescBlock, List.filter_append]
  · intro hlen
    unfold strTake
    rw [List.take_of_length_le hlen]

/-- Witness for C7 on a record whose description has exactly 50
characters. -/
theorem c7_description_truncation_witness :
    (jobDesc50.description =
        some "PM role building payment products across India now" ∧
      "PM role building payment products across India now" ≠ "" ∧
      ("PM role building payment products across India now" : String).data.length = 50) ∧
    ((format_job_message jobDesc50).filter isDescBlock =
      [Block.descSection ("*Description:*\n" ++
        strTake "PM role building payment products across India now" 300 ++ "...")] ∧
      (("PM role building payment products across India now" : String).data.length ≤ 300 →
        strTake "PM role building payment products across India now" 300 =
          "PM role building payment products across India now")) :=
  ⟨⟨rfl, by decide, by decide⟩,
    c7_description_truncation jobDesc50 _ rfl (by decide)⟩

/-- Claim C8, counterexample: when channel resolution fails on the first
pass, the next pass calls `conversations_list` again — two resolution
calls within one process lifetime, refuting "at most one time". -/
theorem c8_counterexample :
    (run_scheduled_passes "job-alerts" [env_resolve_fail, env_resolve_fail]
        { channel_id := none, posted_jobs := [] }).2 = 2 := by
  rfl

/-- Claim C8 (amended): resolution is lazy and cached — a run starting
with a cached (truthy) channel id makes no `conversations_list` call,
and a run whose first pass resolves successfully to a non-empty id makes
exactly one call over the whole run; only failed resolutions are retried
on later passes. -/
theorem c8_channel_resolution_amended (name : String) (envs : List PassEnv)
    (stc st0 : BotState) (env : PassEnv)
    (chs : List (String × String)) (id : String)
    (hcached : truthyOpt stc.channel_id = true)
    (hfresh : truthyOpt st0.channel_id = false)
    (hl : env.listing = ListOutcome.channels chs)
    (hf : find_channel name chs = some id)
    (hid : id ≠ "") :
    (run_scheduled_passes name envs stc).2 = 0 ∧
      (run_scheduled_passes name (env :: envs) st0).2 = 1 := by
  refine ⟨run_scheduled_passes_cached name envs stc hcached, ?_⟩
  obtain ⟨h1, h2⟩ := run_once_resolves name env st0 hfresh chs id hl hf
  rcases hrun : run_once name env st0 with ⟨fault, st1, n⟩
  rw [hrun] at h1 h2
  have htr : truthyOpt st1.channel_id = true := by
    rw [h2]
    exact truthy_some_ne id hid
  simp only [run_scheduled_passes, hrun]
  rcases hrec : run_scheduled_passes name envs st1 with ⟨st2, m⟩
  have hm : m = 0 := by
    have := run_scheduled_passes_cached name envs st1 htr
    rw [hrec] at this
    exact this
  simp at h1
  simp [h1, hm]

/-- Witness for C8 (amended) on concrete pass environments. -/
theorem c8_channel_resolution_amended_witness :
    (truthyOpt (some "C9" : Option String) = true ∧
      truthyOpt (none : Option String) = false ∧
      env_resolve_good.listing = ListOutcome.channels [("job-alerts", "C123")] ∧
      find_channel "job-alerts" [("job-alerts", "C123")] = some "C123" ∧
      ("C123" : String) ≠ "") ∧
    ((run_scheduled_passes "job-alerts" [env_resolve_fail]
        { channel_id := some "C9", posted_jobs := [] }).2 = 0 ∧
      (run_scheduled_passes "job-alerts" (env_resolve_good :: [env_resolve_fail])
        { channel_id := none, posted_jobs := [] }).2 = 1) :=
  ⟨⟨by decide, by decide, rfl, by decide, by decide⟩,
    c8_channel_resolution_amended "job-alerts" [env_resolve_fail]
      { channel_id := some "C9", posted_jobs := [] }
      { channel_id := none, posted_jobs := [] }
      env_resolve_good [("job-alerts", "C123")] "C123"
      (by decide) (by decide) rfl (by decide) (by decide)⟩

/-- Claim C9: in the scheduled loop, a run without an external interrupt
never stops, each faulting pass is reported and followed by exactly one
fixed 300-second cooldown while the loop keeps consuming the remaining
passes, and a run stops exactly when an external interrupt occurs. -/
theorem c9_scheduler_resilience (hours : Nat)
    (events events2 : List PassEvent)
    (hni : PassEvent.interrupt ∉ events) :
    (run_scheduled_loop hours events).2 = false ∧
      (run_scheduled_loop hours events).1.countP isCooldown =
        events.countP isFault ∧
      (run_scheduled_loop hours events).1.countP isReport =
        events.countP isFault ∧
      ((run_scheduled_loop hours events2).2 = true ↔
        PassEvent.interrupt ∈ events2) := by
  obtain ⟨hc, hr⟩ := run_loop_fault_counts hours events hni
  refine ⟨?_, hc, hr, run_loop_stops_iff hours events2⟩
  by_cases hb : (run_scheduled_loop hours events).2 = true
  · exact absurd ((run_loop_stops_iff hours events).mp hb) hni
  · simpa using hb

/-- Witness for C9 on a concrete event sequence containing a fault. -/
theorem c9_scheduler_resilience_witness :
    (PassEvent.interrupt ∉
        [PassEvent.passFault "fetch blew up", PassEvent.passOk]) ∧
    ((run_scheduled_loop 24
        [PassEvent.passFault "fetch blew up", PassEvent.passOk]).2 = false ∧
      (run_scheduled_loop 24
          [PassEvent.passFault "fetch blew up", PassEvent.passOk]).1.countP isCooldown =
        ([PassEvent.passFault "fetch blew up", PassEvent.passOk]).countP isFault ∧
      (run_scheduled_loop 24
          [PassEvent.passFault "fetch blew up", PassEvent.passOk]).1.countP isReport =
        ([PassEvent.passFault "fetch blew up", PassEvent.passOk]).countP isFault ∧
      ((run_scheduled_loop 24
          [PassEvent.passFault "boom", PassEvent.interrupt]).2 = true ↔
        PassEvent.interrupt ∈ [PassEvent.passFault "boom", PassEvent.interrupt])) :=
  ⟨by decide,
    c9_scheduler_resilience 24
      [PassEvent.passFault "fetch blew up", PassEvent.passOk]
      [PassEvent.passFault "boom", PassEvent.interrupt] (by decide)⟩

end JobBot
